import Mathlib

set_option maxRecDepth 20000

/-!
Verification of the codex-title session-status watcher (src/codex_title/cli.py).

The Python module is embedded shallowly: pure helper functions become Lean
functions over ℚ (modelling Python floats), `Option` models `None`, and the
stateful loops (`_collect_log_state`, `watch_log`, `SwitchState.maybe_switch`)
become explicit state-passing step functions.  Library calls with no logic of
their own (ISO-8601 datetime parsing, `json.loads` of tool-call arguments,
`shlex.split`, filesystem and subprocess queries) are represented by their
results: an event carries the parsed timestamp directly, a tool call carries
its already-decoded token list, and filesystem/git lookups are fields of an
environment record.  Debug logging and terminal writes are side effects with
no influence on state and are dropped (titles emitted by `watch_log` are kept
as an explicit trace).
-/

namespace CodexTitle

/-- String literals used by the source, named so they can be shared. -/
@[simp] def sEventMsg : String := "event_msg"

@[simp] def sResponseItem : String := "response_item"

@[simp] def sUserMessage : String := "user_message"

@[simp] def sAgentMessage : String := "agent_message"

@[simp] def sAssistantMessage : String := "assistant_message"

@[simp] def sTurnAborted : String := "turn_aborted"

@[simp] def sMessage : String := "message"

@[simp] def sUser : String := "user"

@[simp] def sAssistant : String := "assistant"

@[simp] def sFunctionCall : String := "function_call"

@[simp] def sFunctionCallOutput : String := "function_call_output"

@[simp] def sCustomToolCall : String := "custom_tool_call"

@[simp] def sCustomToolCallOutput : String := "custom_tool_call_output"

@[simp] def sReasoning : String := "reasoning"

@[simp] def sCompleted : String := "completed"

@[simp] def sShellCommand : String := "shell_command"

@[simp] def sExecCommand : String := "exec_command"

@[simp] def sIdle : String := "_idle"

@[simp] def sGit : String := "git"

@[simp] def sCommit : String := "commit"

/-- `_BOOTSTRAP_PREFIXES`, first entry. -/
@[simp] def bootstrapPrefix1 : String := "# AGENTS.md instructions"

/-- `_BOOTSTRAP_PREFIXES`, second entry. -/
@[simp] def bootstrapPrefix2 : String := "<environment_context>"

/-- `_RESUME_PREFIXES`, first entry. -/
@[simp] def resumePrefix1 : String := "/resume"

/-- `_RESUME_PREFIXES`, second entry. -/
@[simp] def resumePrefix2 : String := "/last"

/-- `_COMMAND_SEPARATORS = {";", "&&", "||", "|", "&"}`. -/
@[simp] def commandSeparators : List String := [";", "&&", "||", "|", "&"]

/-- ASCII whitespace as recognised by Python's `str.lstrip` / `\s`. -/
def isPySpace (c : Char) : Bool :=
  c == ' ' || c == '\t' || c == '\n' || c == '\r' || c == '\x0b' || c == '\x0c'

/-- Python `text.lstrip()` (ASCII whitespace), on character lists. -/
def pyLstripChars (s : List Char) : List Char :=
  s.dropWhile isPySpace

/-- Does the first character list start with the second (`str.startswith`)? -/
def startsWithChars : List Char → List Char → Bool
  | _, [] => true
  | [], _ :: _ => false
  | c :: cs, p :: ps => c == p && startsWithChars cs ps

/-- Split a character list on a separator character (`str.split(sep)`). -/
def splitOnChar (sep : Char) (cs : List Char) : List (List Char) :=
  cs.foldr
    (fun c acc =>
      if c == sep then [] :: acc
      else match acc with
        | [] => [[c]]
        | g :: gs => (c :: g) :: gs)
    [[]]

/-- `_timestamp_trustworthy(ts, reference)`: `None` is never trustworthy; with
no positive clock-skew tolerance everything is trustworthy; otherwise the
timestamp must be within the tolerance of the reference.  The module-level
`_CLOCK_SKEW_SECS` is passed explicitly as `skew`. -/
def timestamp_trustworthy (skew : ℚ) (ts : Option ℚ) (reference : ℚ) : Bool :=
  match ts with
  | none => false
  | some t => if skew ≤ 0 then true else decide (|t - reference| ≤ skew)

/-- Payload of one JSON event, restricted to the keys the watcher inspects.
`command` holds the shell command from the decoded `arguments` mapping
(`json.loads` plus `shlex.split` are library calls; the payload carries the
resulting token list, `none` when decoding fails or no command key exists). -/
structure Payload where
  ptype : Option String := none
  role : Option String := none
  message : Option String := none
  contentText : Option String := none
  callId : Option String := none
  status : Option String := none
  name : Option String := none
  command : Option (List String) := none
  output : Option String := none
deriving DecidableEq

/-- One parsed JSON event.  `ts` is the value of `_parse_timestamp(event)`
(`none` models an absent, non-string, or unparseable `timestamp` field);
`etype` is `event.get("type")`; a missing/falsy `payload` is the empty one. -/
structure Event where
  etype : Option String := none
  ts : Option ℚ := none
  payload : Payload := {}
deriving DecidableEq

/-- `_should_emit(event, start_time)`: no floor admits everything; with a
floor, an event without a parseable timestamp is rejected, an untrustworthy
timestamp is admitted anyway, and otherwise admission is `ts >= start_time`. -/
def should_emit (skew : ℚ) (event : Event) (start_time : Option ℚ) : Bool :=
  match start_time with
  | none => true
  | some start =>
    match event.ts with
    | none => false
    | some t =>
      if ¬ timestamp_trustworthy skew (some t) start then true
      else decide (start ≤ t)

/-- `_should_idle_done(pending_user, real_user_seen, pending_tool_calls,
last_response_activity, now, idle_timeout)`.  The pending tool-call set is a
list; Python's truthiness test on the set is emptiness. -/
def should_idle_done (pending_user real_user_seen : Bool)
    (pending_tool_calls : List String) (last_response_activity : Option ℚ)
    (now idle_timeout : ℚ) : Bool :=
  if idle_timeout ≤ 0 then false
  else if !pending_user || !real_user_seen then false
  else if !pending_tool_calls.isEmpty then false
  else
    match last_response_activity with
    | none => false
    | some last => decide (idle_timeout ≤ now - last)

/-- `_is_bootstrap_message(text)`: the left-stripped text starts with one of
the bootstrap prefixes. -/
def is_bootstrap_message (text : String) : Bool :=
  startsWithChars (pyLstripChars text.toList) bootstrapPrefix1.toList ||
    startsWithChars (pyLstripChars text.toList) bootstrapPrefix2.toList

/-- Truthiness of an optional string (Python `if s:` on a `str | None`). -/
def optStrTruthy : Option String → Bool
  | none => false
  | some s => !(s == "")

/-- ASCII `str.lower` on one character. -/
def asciiLower (c : Char) : Char :=
  if 'A' ≤ c ∧ c ≤ 'Z' then Char.ofNat (c.toNat + 32) else c

/-- `_is_resume_command(text)`: falsy text is not a resume command; otherwise
the left-stripped, lower-cased text must start with `/resume` or `/last`. -/
def is_resume_command : Option String → Bool
  | none => false
  | some t =>
    if t == "" then false
    else
      startsWithChars ((pyLstripChars t.toList).map asciiLower) resumePrefix1.toList ||
        startsWithChars ((pyLstripChars t.toList).map asciiLower) resumePrefix2.toList

/-- `_extract_user_text(etype, payload)`: the message of an `event_msg`
`user_message`, else the first content entry text of a `response_item`
user message. -/
def extract_user_text (etype : Option String) (p : Payload) : Option String :=
  match (if etype = some sEventMsg ∧ p.ptype = some sUserMessage
         then p.message else none) with
  | some m => some m
  | none =>
    if etype = some sResponseItem ∧ p.ptype = some sMessage ∧ p.role = some sUser
    then p.contentText else none

/-- `PurePosixPath(token).name`: the last path component, with empty and `.`
components dropped (pathlib normalises single dots away). -/
def pathName (token : String) : List Char :=
  (((splitOnChar '/' token.toList).filter
    (fun c => !(c.isEmpty || c == ['.']))).getLast?).getD []

/-- `_is_git_token(token)`: the token is `git` or a path whose final
component is `git`. -/
def is_git_token (token : String) : Bool :=
  token == sGit || pathName token == sGit.toList

/-- `_segment_has_git_commit(tokens)`: some token is a git invocation with a
later `commit` token in the same segment. -/
def segment_has_git_commit : List String → Bool
  | [] => false
  | t :: rest => (is_git_token t && rest.contains sCommit) || segment_has_git_commit rest

/-- Loop body of `_command_has_git_commit`: accumulate the current segment,
check it at each separator, and check the trailing segment at the end. -/
def command_has_git_commit_aux : List String → List String → Bool
  | segment, [] => segment_has_git_commit segment
  | segment, t :: rest =>
    if commandSeparators.contains t then
      segment_has_git_commit segment || command_has_git_commit_aux [] rest
    else
      command_has_git_commit_aux (segment ++ [t]) rest

/-- `_command_has_git_commit(command)` on the `shlex.split` token list (the
fallback substring test for untokenizable commands is outside this model). -/
def command_has_git_commit (tokens : List String) : Bool :=
  command_has_git_commit_aux [] tokens

/-- Drop an expected literal prefix, returning the rest on success. -/
def dropLiteral : List Char → List Char → Option (List Char)
  | [], s => some s
  | _ :: _, [] => none
  | c :: cs, d :: ds => if c == d then dropLiteral cs ds else none

/-- Numeric value of a digit run. -/
def digitsVal (cs : List Char) : ℕ :=
  cs.foldl (fun acc c => acc * 10 + (c.toNat - 48)) 0

/-- Match `Exit code:\s*(\d+)` at the head of the text. -/
def matchExitCodeAt (s : List Char) : Option ℕ :=
  match dropLiteral ((("Exit code:") : String).toList) s with
  | none => none
  | some rest =>
    let rest2 := rest.dropWhile isPySpace
    let digits := rest2.takeWhile Char.isDigit
    if digits.isEmpty then none else some (digitsVal digits)

/-- Match `Process exited with code\s+(\d+)` at the head of the text. -/
def matchProcessExitAt (s : List Char) : Option ℕ :=
  match dropLiteral ((("Process exited with code") : String).toList) s with
  | none => none
  | some rest =>
    if (rest.takeWhile isPySpace).isEmpty then none
    else
      let rest2 := rest.dropWhile isPySpace
      let digits := rest2.takeWhile Char.isDigit
      if digits.isEmpty then none else some (digitsVal digits)

/-- Match `"exit_code"\s*:\s*(\d+)` at the head of the text. -/
def matchJsonExitAt (s : List Char) : Option ℕ :=
  match dropLiteral ((("\"exit_code\"") : String).toList) s with
  | none => none
  | some rest =>
    match rest.dropWhile isPySpace with
    | ':' :: rest2 =>
      let rest3 := rest2.dropWhile isPySpace
      let digits := rest3.takeWhile Char.isDigit
      if digits.isEmpty then none else some (digitsVal digits)
    | _ => none

/-- `re.search`: first position at which the matcher succeeds. -/
def searchFirst (m : List Char → Option ℕ) : List Char → Option ℕ
  | [] => none
  | c :: rest =>
    match m (c :: rest) with
    | some v => some v
    | none => searchFirst m rest

/-- `_parse_exit_code(output)`: try the three exit-code patterns in order. -/
def parse_exit_code (output : String) : Option ℕ :=
  match searchFirst matchExitCodeAt output.toList with
  | some v => some v
  | none =>
    match searchFirst matchProcessExitAt output.toList with
    | some v => some v
    | none => searchFirst matchJsonExitAt output.toList

/-- `_extract_command(payload)`, with `json.loads`/`shlex.split` represented
by the payload's pre-decoded token list: a `function_call` named
`shell_command` or `exec_command` yields its command tokens. -/
def extract_command (p : Payload) : Option (List String) :=
  if p.ptype = some sFunctionCall ∧
      (p.name = some sShellCommand ∨ p.name = some sExecCommand) then
    p.command
  else none

/-- Set insertion on the list model of a Python `set`. -/
def listInsert (id : String) (l : List String) : List String :=
  if l.contains id then l else l ++ [id]

/-- Set removal (`discard` / `pop`) on the list model of a Python `set`. -/
def listRemove (id : String) (l : List String) : List String :=
  l.filter (fun x => !(x == id))

/-- `_note_tool_call(resp_type, payload, pending_calls)`: a tool call adds
its id (or discards it when already `completed`); a tool-call output
discards it. -/
def note_tool_call (resp_type : Option String) (p : Payload)
    (pending_calls : List String) : List String :=
  if resp_type = some sFunctionCall ∨ resp_type = some sCustomToolCall then
    match p.callId with
    | some id =>
      if p.status = some sCompleted then listRemove id pending_calls
      else listInsert id pending_calls
    | none => pending_calls
  else if resp_type = some sFunctionCallOutput ∨
      resp_type = some sCustomToolCallOutput then
    match p.callId with
    | some id => listRemove id pending_calls
    | none => pending_calls
  else pending_calls

/-- Mutable locals of `_collect_log_state`, gathered into one state record.
`pending_commit_calls` is the key set of the `dict[str, bool]` (its values
are always `True`). -/
structure LogState where
  pending_user : Bool := false
  seen_assistant : Bool := false
  last_user_ts : Option ℚ := none
  last_assistant_ts : Option ℚ := none
  real_user_seen : Bool := false
  pending_commit_calls : List String := []
  pending_tool_calls : List String := []
  turn_commit_seen : Bool := false
  last_turn_commit : Bool := false
  response_seen : Bool := false
  last_response_ts : Option ℚ := none
deriving DecidableEq

/-- Initial state of `_collect_log_state`: only `real_user_seen` starts from
the `history_seen` argument. -/
def initLogState (history_seen : Bool) : LogState :=
  { real_user_seen := history_seen }

/-- The `note_response` closure: mark a response seen and record its
timestamp when present. -/
def noteResponse (ts : Option ℚ) (st : LogState) : LogState :=
  { st with
    response_seen := true
    last_response_ts := match ts with | some t => some t | none => st.last_response_ts }

/-- Truthiness of `msg_type` (`if msg_type and ...`). -/
def msgTruthy : Option String → Bool
  | none => false
  | some s => !(s == "")

/-- One loop iteration of `_collect_log_state` on a parsed event. -/
def collectStep (st : LogState) (data : Event) : LogState :=
  let ts := data.ts
  let etype := data.etype
  let p := data.payload
  match extract_user_text etype p with
  | some user_text =>
    if ¬ st.real_user_seen ∧ is_bootstrap_message user_text then st
    else
      { st with
        real_user_seen := true
        pending_user := true
        response_seen := false
        pending_tool_calls := []
        turn_commit_seen := false
        pending_commit_calls := []
        last_user_ts := match ts with | some t => some t | none => st.last_user_ts }
  | none =>
    let st :=
      if etype = some sResponseItem then
        let resp_type := p.ptype
        let st := { st with
          pending_tool_calls := note_tool_call resp_type p st.pending_tool_calls }
        let st :=
          if resp_type = some sFunctionCall then
            match extract_command p with
            | some tokens =>
              if command_has_git_commit tokens then
                match p.callId with
                | some id =>
                  { st with pending_commit_calls := listInsert id st.pending_commit_calls }
                | none => st
              else st
            | none => st
          else if resp_type = some sFunctionCallOutput then
            match p.callId with
            | some id =>
              if st.pending_commit_calls.contains id then
                let st := { st with
                  pending_commit_calls := listRemove id st.pending_commit_calls }
                match p.output with
                | some out =>
                  if parse_exit_code out = some 0 then
                    { st with turn_commit_seen := true }
                  else st
                | none => st
              else st
            | none => st
          else st
        if resp_type = some sMessage then
          if p.role = some sAssistant then
            noteResponse ts
              { st with
                pending_user := false
                seen_assistant := true
                last_turn_commit := st.turn_commit_seen
                last_assistant_ts :=
                  match ts with | some t => some t | none => st.last_assistant_ts }
          else st
        else if resp_type ≠ none then noteResponse ts st
        else st
      else st
    if etype = some sEventMsg then
      let msg_type := p.ptype
      let st :=
        if msgTruthy msg_type ∧ msg_type ≠ some sUserMessage then noteResponse ts st
        else st
      if msg_type = some sAgentMessage ∨ msg_type = some sAssistantMessage ∨
          msg_type = some sTurnAborted then
        { st with
          pending_user := false
          seen_assistant := true
          last_turn_commit := st.turn_commit_seen
          last_assistant_ts :=
            match ts with | some t => some t | none => st.last_assistant_ts }
      else st
    else st

/-- The scan loop of `_collect_log_state` over the file's parsed lines
(`none` is a malformed JSON line, skipped). -/
def collectRun (history_seen : Bool) (lines : List (Option Event)) : LogState :=
  lines.foldl
    (fun st l => match l with | none => st | some e => collectStep st e)
    (initLogState history_seen)

/-- The post-loop idle fallback of `_collect_log_state` (lines 623-633):
close a confirmed, tool-free open turn whose last response is trustworthy
and older than the idle timeout. -/
def collectFinalize (skew idle_timeout now : ℚ) (st : LogState) : LogState :=
  if st.pending_user ∧ st.real_user_seen ∧ st.response_seen ∧
      st.pending_tool_calls = [] then
    if 0 < idle_timeout then
      match st.last_response_ts with
      | some lrt =>
        if timestamp_trustworthy skew (some lrt) now then
          if idle_timeout ≤ now - lrt then
            { st with
              pending_user := false
              seen_assistant := true
              last_turn_commit := st.turn_commit_seen
              last_assistant_ts :=
                match st.last_assistant_ts with
                | some a => some a
                | none => some lrt }
          else st
        else st
      | none => st
    else st
  else st

/-- The 5-tuple `_collect_log_state` returns, as a named record. -/
structure CollectResult where
  pending_user : Bool
  seen_assistant : Bool
  last_user_ts : Option ℚ
  last_assistant_ts : Option ℚ
  last_turn_commit : Bool
deriving DecidableEq

/-- `_collect_log_state(log_path, history_seen)`, over the file's parsed
lines, with `_CLOCK_SKEW_SECS`, `_IDLE_DONE_SECS`, and `time.time()` passed
explicitly. -/
def collect_log_state (skew idle_timeout now : ℚ) (history_seen : Bool)
    (lines : List (Option Event)) : CollectResult :=
  let st := collectFinalize skew idle_timeout now (collectRun history_seen lines)
  { pending_user := st.pending_user
    seen_assistant := st.seen_assistant
    last_user_ts := st.last_user_ts
    last_assistant_ts := st.last_assistant_ts
    last_turn_commit := st.last_turn_commit }

/-- Environment for the title derivation in `_initial_title_from_log`:
`commitRoot` is `_git_repo_root(Path.cwd())`, `commitInRange` is
`_git_commit_in_range(commit_root, last_user_ts, last_assistant_ts)`. -/
structure TitleEnv where
  commitRoot : Option String
  commitInRange : ℚ → ℚ → Bool

/-- Title selection of `_initial_title_from_log` (lines 655-670) from the
collected state: running while a turn is open, nothing before any assistant
output, the done title on a committed turn, and otherwise a git query
deciding between done and no-commit. -/
def initial_title_from_state (env : TitleEnv)
    (running_title done_title no_commit_title : String)
    (r : CollectResult) : Option String :=
  if r.pending_user then some running_title
  else if ¬ r.seen_assistant then none
  else if r.last_turn_commit then some done_title
  else
    match r.last_user_ts, r.last_assistant_ts, env.commitRoot with
    | some ut, some vt, some _ =>
      if ¬ no_commit_title = "" then
        if env.commitInRange ut vt then some done_title else some no_commit_title
      else some done_title
    | _, _, _ => some done_title

/-- Per-watch configuration of `watch_log`, fixed before the event loop:
titles, `_IDLE_DONE_SECS`, `_session_id_from_log(log_path)`, and
`_git_repo_root(Path.cwd())` (queried only when a no-commit title is set). -/
structure WatchCfg where
  running_title : String
  done_title : String
  no_commit_title : String
  idle_timeout : ℚ
  session_id : Option String
  commit_root : Option String

/-- External queries `watch_log` makes while handling one event: the current
git head and `_history_has_session(session_id, limit=200)`. -/
structure WatchEnv where
  gitHead : Option String
  historyHas : Bool

/-- Mutable locals of `watch_log` (plus `done_state.seen`, the switch-state
flag toggled on resume commands, and the trace of emitted titles). -/
structure WatchState where
  pending_user : Bool := false
  real_user_seen : Bool := false
  turn_base_head : Option String := none
  pending_commit_calls : List String := []
  pending_tool_calls : List String := []
  turn_commit_seen : Bool := false
  last_response_activity : Option ℚ := none
  allow_external_switch : Bool := false
  done_seen : Bool := false
  titles : List String := []
deriving DecidableEq

/-- `title.set(t)`: append to the emitted-title trace. -/
def setTitle (t : String) (st : WatchState) : WatchState :=
  { st with titles := st.titles ++ [t] }

/-- The `set_done_title` closure of `watch_log`: done on an explicit commit;
otherwise, with a no-commit title, a repo, and a turn-open head snapshot,
compare against the current head; fall back to the done title. -/
def set_done_title (cfg : WatchCfg) (env : WatchEnv) (st : WatchState) :
    WatchState :=
  let st :=
    if st.turn_commit_seen then setTitle cfg.done_title st
    else if !(cfg.no_commit_title == "") ∧ cfg.commit_root ≠ none ∧
        st.turn_base_head ≠ none then
      match env.gitHead with
      | some h =>
        if !(h == "") ∧ some h ≠ st.turn_base_head then setTitle cfg.done_title st
        else setTitle cfg.no_commit_title st
      | none => setTitle cfg.no_commit_title st
    else setTitle cfg.done_title st
  { st with done_seen := true }

/-- The `refresh_real_user` closure of `watch_log`: once seen, always true;
otherwise absent or bootstrap text falls back to the history index, and any
other text confirms real user activity. -/
def refresh_real_user (cfg : WatchCfg) (env : WatchEnv) (text : Option String)
    (st : WatchState) : WatchState × Bool :=
  if st.real_user_seen then (st, true)
  else
    match text with
    | none =>
      if optStrTruthy cfg.session_id && env.historyHas then
        ({ st with real_user_seen := true }, true)
      else (st, false)
    | some t =>
      if is_bootstrap_message t then
        if optStrTruthy cfg.session_id && env.historyHas then
          ({ st with real_user_seen := true }, true)
        else (st, false)
      else ({ st with real_user_seen := true }, true)

/-- The `if refresh_real_user(user_text): title.set(running_title)` pattern
of `watch_log`: run the refresh (with its side effect on `real_user_seen`)
and emit the running title when it confirms real user activity. -/
def refreshAndTitle (cfg : WatchCfg) (env : WatchEnv) (user_text : Option String)
    (st : WatchState) : WatchState :=
  match refresh_real_user cfg env user_text st with
  | (st2, true) => setTitle cfg.running_title st2
  | (st2, false) => st2

/-- The turn-opening block `watch_log` runs for a user message (duplicated in
the source for the `event_msg` and `response_item` representations): open the
turn, clear tool and commit bookkeeping, snapshot the git head, honour resume
commands, and show the running title once real user activity is confirmed. -/
def watchUserTurn (cfg : WatchCfg) (env : WatchEnv) (st : WatchState)
    (user_text : Option String) : WatchState :=
  let st := { st with
    pending_user := true
    last_response_activity := none
    pending_tool_calls := []
    turn_commit_seen := false
    pending_commit_calls := [] }
  let st :=
    if cfg.commit_root ≠ none then { st with turn_base_head := env.gitHead }
    else st
  let st :=
    if is_resume_command user_text then { st with allow_external_switch := true }
    else st
  refreshAndTitle cfg env user_text st

/-- One iteration of the `watch_log` event loop (lines 1166-1242), with
`time.monotonic()` passed as `now`.  Title writes and the switch-state checks
(owned by `iter_jsonl`) are outside this step. -/
def watchStep (cfg : WatchCfg) (env : WatchEnv) (now : ℚ) (st : WatchState)
    (event : Event) : WatchState :=
  let etype := event.etype
  if etype = some sIdle then
    if should_idle_done st.pending_user st.real_user_seen st.pending_tool_calls
        st.last_response_activity now cfg.idle_timeout then
      set_done_title cfg env
        { st with pending_user := false, last_response_activity := none }
    else st
  else
    let p := event.payload
    let user_text := extract_user_text etype p
    let st :=
      if user_text = none then { st with last_response_activity := some now }
      else st
    if etype = some sEventMsg then
      let msg_type := p.ptype
      if msg_type = some sUserMessage then
        watchUserTurn cfg env st user_text
      else if msg_type = some sAgentMessage ∨ msg_type = some sAssistantMessage ∨
          msg_type = some sTurnAborted then
        let st := { st with pending_user := false, last_response_activity := none }
        if st.real_user_seen then set_done_title cfg env st else st
      else st
    else if etype = some sResponseItem ∧ p.ptype = some sMessage then
      if p.role = some sUser then
        watchUserTurn cfg env st user_text
      else if p.role = some sAssistant then
        let st := { st with pending_user := false, last_response_activity := none }
        if st.real_user_seen then set_done_title cfg env st else st
      else st
    else if etype = some sResponseItem then
      let resp_type := p.ptype
      let st := { st with
        pending_tool_calls := note_tool_call resp_type p st.pending_tool_calls }
      let st :=
        if resp_type = some sReasoning ∨ resp_type = some sFunctionCall ∨
            resp_type = some sCustomToolCall then
          if st.pending_user then refreshAndTitle cfg env user_text st
          else st
        else st
      if resp_type = some sFunctionCall then
        match extract_command p with
        | some tokens =>
          if command_has_git_commit tokens then
            match p.callId with
            | some id =>
              { st with pending_commit_calls := listInsert id st.pending_commit_calls }
            | none => st
          else st
        | none => st
      else if resp_type = some sFunctionCallOutput then
        match p.callId with
        | some id =>
          if st.pending_commit_calls.contains id then
            let st := { st with
              pending_commit_calls := listRemove id st.pending_commit_calls }
            match p.output with
            | some out =>
              if parse_exit_code out = some 0 then { st with turn_commit_seen := true }
              else st
            | none => st
          else st
        | none => st
      else st
    else st

/-- Line 1157 of `watch_log`: with a start byte offset the reader gets no
admission floor, otherwise it gets the wall-clock start time. -/
def iter_start_time (start_time : Option ℚ) (start_offset : Option ℕ) :
    Option ℚ :=
  if start_offset.isSome then none else start_time

/-- The admission filter `iter_jsonl` applies to parsed lines: malformed
lines are dropped, parsed events pass through `_should_emit`. -/
def iterJsonlAdmitted (skew : ℚ) (start_time : Option ℚ)
    (lines : List (Option Event)) : List Event :=
  lines.filterMap fun l =>
    match l with
    | none => none
    | some d => if should_emit skew d start_time then some d else none

/-- Filesystem context of `_best_log_candidate`: `metaTs` is
`_session_meta_timestamp(path)` (the parsed `session_meta` timestamp of the
file, `none` when absent or unparseable) and `matchesCwd` is
`_log_matches_cwd(path, cwd)` for the fixed query cwd. -/
structure LocEnv where
  metaTs : String → Option ℚ
  matchesCwd : String → Bool

/-- Python tuple `<` on the ranking key `(cwd_rank, distance, -mtime)`. -/
def keyLt (a b : ℕ × ℚ × ℚ) : Bool :=
  decide (a.1 < b.1 ∨ (a.1 = b.1 ∧
    (a.2.1 < b.2.1 ∨ (a.2.1 = b.2.1 ∧ a.2.2 < b.2.2))))

/-- Loop body of `_best_log_candidate`: an untrustworthy session-meta
timestamp is discarded; the file's mtime stands in for the distance; cwd
matches rank first. -/
def candidateKey (skew start_time : ℚ) (env : LocEnv) (mtime : ℚ)
    (path : String) : ℕ × ℚ × ℚ :=
  let meta_ts :=
    match env.metaTs path with
    | some m =>
      if ¬ timestamp_trustworthy skew (some m) start_time then none else some m
    | none => none
  let candidate_ts := match meta_ts with | some m => m | none => mtime
  let distance := |candidate_ts - start_time|
  ((if env.matchesCwd path then 0 else 1), distance, -mtime)

/-- `_best_log_candidate(candidates, start_time, cwd)`: the candidate with
the lexicographically least key wins; earlier candidates win ties. -/
def best_log_candidate (skew start_time : ℚ) (env : LocEnv)
    (candidates : List (ℚ × String)) : Option String :=
  (candidates.foldl
    (fun (acc : Option ((ℕ × ℚ × ℚ) × String)) c =>
      let key := candidateKey skew start_time env c.1 c.2
      match acc with
      | none => some (key, c.2)
      | some (best_key, best_path) =>
        if keyLt key best_key then some (key, c.2) else some (best_key, best_path))
    none).map Prod.snd

/-- Consume exactly `n` digits. -/
def takeDigitsN : ℕ → List Char → Option (List Char)
  | 0, s => some s
  | _ + 1, [] => none
  | n + 1, c :: rest => if c.isDigit then takeDigitsN n rest else none

/-- Consume one expected character. -/
def matchChar (c : Char) : List Char → Option (List Char)
  | [] => none
  | d :: rest => if d == c then some rest else none

/-- The character class `[0-9:.]` of the resume-notice timestamp. -/
def isTsChar (c : Char) : Bool :=
  c.isDigit || c == ':' || c == '.'

/-- The timestamp part `\d{4}-\d{2}-\d{2}T[0-9:.]+Z` of `_TUI_RESUME_RE`. -/
def tuiTsMatch (s : List Char) : Option (List Char) := do
  let s ← takeDigitsN 4 s
  let s ← matchChar '-' s
  let s ← takeDigitsN 2 s
  let s ← matchChar '-' s
  let s ← takeDigitsN 2 s
  let s ← matchChar 'T' s
  if (s.takeWhile isTsChar).isEmpty then none
  else matchChar 'Z' (s.dropWhile isTsChar)

/-- `_TUI_RESUME_RE.match(line)`, returning the captured path.  The regex is
anchored at the start of the line and is deterministic: every repetition's
character class excludes the character that follows it, and the optional and
alternative literals are prefix-disjoint, so greedy matching without
backtracking is exact. -/
def tui_resume_match (line : String) : Option String := do
  let s ← tuiTsMatch line.toList
  if (s.takeWhile isPySpace).isEmpty then none
  else
    let s := s.dropWhile isPySpace
    let s ← dropLiteral ((("INFO Resum") : String).toList) s
    let s ←
      match dropLiteral ((("ing") : String).toList) s with
      | some s2 => some s2
      | none => dropLiteral ((("ed") : String).toList) s
    let s ← dropLiteral (((" rollout") : String).toList) s
    let s :=
      match dropLiteral (((" successfully") : String).toList) s with
      | some s2 => s2
      | none => s
    let s ← dropLiteral (((" from \"") : String).toList) s
    let path := s.takeWhile (fun c => !(c == '"'))
    if path.isEmpty then none
    else
      let s2 := s.dropWhile (fun c => !(c == '"'))
      let _ ← matchChar '"' s2
      pure (String.mk path)

/-- `_tail_lines(path, limit)`: the last `limit` lines in file order (the
bounded deque). -/
def tailLinesModel (limit : ℕ) (lines : List String) : List String :=
  lines.drop (lines.length - limit)

/-- Filesystem context of `_resume_log_from_tui`: `path.exists()` and
`_log_matches_cwd(path, cwd)` for the fixed query cwd. -/
structure TuiEnv where
  pathExists : String → Bool
  matchesCwd : String → Bool

/-- Scan loop of `_resume_log_from_tui` over newest-first lines, carrying the
fallback (first existing non-matching reference seen). -/
def resumeScan (env : TuiEnv) : List String → Option String → Option String
  | [], fallback => fallback
  | line :: rest, fallback =>
    match tui_resume_match line with
    | none => resumeScan env rest fallback
    | some p =>
      if !(env.pathExists p) then resumeScan env rest fallback
      else if env.matchesCwd p then some p
      else
        resumeScan env rest
          (match fallback with | some f => some f | none => some p)

/-- `_resume_log_from_tui(tui_log, cwd)`: scan the last 1000 lines newest
first; return the first existing cwd-matching referenced path, else the
first existing referenced path as fallback. -/
def resume_log_from_tui (env : TuiEnv) (lines : List String) : Option String :=
  resumeScan env ((tailLinesModel 1000 lines).reverse) none

/-- Spec-side: the existing path referenced by one resume-notice line. -/
def resumeRef (env : TuiEnv) (line : String) : Option String :=
  match tui_resume_match line with
  | some p => if env.pathExists p then some p else none
  | none => none

/-- Spec-side: first (newest, once the scan list is newest-first) existing
cwd-matching referenced path. -/
def firstMatchingRef (env : TuiEnv) (lines : List String) : Option String :=
  lines.findSome? fun l =>
    match resumeRef env l with
    | some p => if env.matchesCwd p then some p else none
    | none => none

/-- Spec-side: first (newest) existing referenced path. -/
def firstExistingRef (env : TuiEnv) (lines : List String) : Option String :=
  lines.findSome? (resumeRef env)

/-- One parsed history-index line: `ts` is `_parse_history_ts(data.get("ts"))`
and `session_id` is the `session_id` field when it is a string. -/
structure HistEntry where
  ts : Option ℚ := none
  session_id : Option String := none
deriving DecidableEq

/-- External world read by `SwitchState.maybe_switch` during one check: the
companion-log stat mtime and lines, filesystem predicates,
`_find_log_by_session_id(sessions_root, sid, cwd)`,
`_recent_log_any(sessions_root, since, cwd)`, the tailed file's stat mtime,
and the history index's parsed lines (the byte offset is modelled at line
granularity: the writer appends whole lines). -/
structure SwitchEnv where
  tuiMtime : Option ℚ
  tuiLines : List String
  pathExists : String → Bool
  matchesCwd : String → Bool
  findLogBySessionId : String → Option String
  recentLogAny : ℚ → Option String
  logMtime : Option ℚ
  historyLines : List (Option HistEntry)

/-- Fields of `SwitchState` (`__init__`, lines 904-927).  `history_mtime` is
initialised but never read by the source; it is kept for fidelity. -/
structure SwitchState where
  log_path : String
  start_time : ℚ
  switch_after : ℚ := 1
  session_id : Option String := none
  pinned_path : Option String := none
  allow_external_switch : Bool := false
  last_activity : ℚ := 0
  last_check : ℚ := 0
  next_path : Option String := none
  tui_log_mtime : ℚ := 0
  history_mtime : ℚ := 0
  history_offset : ℕ := 0
deriving DecidableEq

/-- `SwitchState._tui_resume_candidate`: only when the companion log's mtime
advanced since the last read is it re-read (and the high-water mark moved). -/
def tui_resume_candidate (env : SwitchEnv) (st : SwitchState) :
    Option String × SwitchState :=
  match env.tuiMtime with
  | none => (none, st)
  | some m =>
    if m ≤ st.tui_log_mtime then (none, st)
    else
      (resume_log_from_tui ⟨env.pathExists, env.matchesCwd⟩ env.tuiLines,
        { st with tui_log_mtime := m })

/-- Scan loop of `SwitchState._history_candidate` over the delta lines,
returning the candidate and the number of lines consumed.  `findLog` is
`_find_log_by_session_id(sessions_root, sid, cwd)`. -/
def histScan (findLog : String → Option String) (sessionId : Option String)
    (startTime skew : ℚ) :
    List (Option HistEntry) → Option String × ℕ
  | [] => (none, 0)
  | entry? :: rest =>
    let recur := fun (_ : Unit) =>
      let r := histScan findLog sessionId startTime skew rest
      (r.1, r.2 + 1)
    match entry? with
    | none => recur ()
    | some entry =>
      if (match entry.ts with
          | some t =>
            timestamp_trustworthy skew (some t) startTime &&
              decide (t < startTime - 1)
          | none => false) then recur ()
      else
        match entry.session_id with
        | none => recur ()
        | some sid =>
          if (match sessionId with
              | some s => optStrTruthy (some s) && (sid == s)
              | none => false) then recur ()
          else
            match findLog sid with
            | none => recur ()
            | some path => (some path, 1)

/-- `SwitchState._history_candidate`: nothing to do unless the history file
grew past the stored offset; otherwise scan only the delta, advancing the
offset past each consumed line and stopping at the first resolvable foreign
session id. -/
def history_candidate (skew : ℚ) (env : SwitchEnv) (st : SwitchState) :
    Option String × SwitchState :=
  let size := env.historyLines.length
  if size ≤ st.history_offset then (none, st)
  else
    let r := histScan env.findLogBySessionId st.session_id st.start_time skew
      (env.historyLines.drop st.history_offset)
    (r.1, { st with history_offset := st.history_offset + r.2 })

/-- The check chain of `SwitchState.maybe_switch` after its guards, on the
state whose `last_check` has been moved to `now`: the companion log, then
the history index, then the sticky pin, then (after `switch_after` seconds
of inactivity) any more recently modified log. -/
def maybe_switch_checks (skew : ℚ) (env : SwitchEnv) (now : ℚ)
    (st : SwitchState) : SwitchState :=
  match tui_resume_candidate env st with
    | (some candidate, st) =>
      let st := { st with pinned_path := some candidate }
      if candidate ≠ st.log_path then { st with next_path := some candidate }
      else st
    | (none, st) =>
      match history_candidate skew env st with
      | (some candidate, st) =>
        let st := { st with pinned_path := some candidate }
        if candidate ≠ st.log_path then { st with next_path := some candidate }
        else st
      | (none, st) =>
        match st.pinned_path with
        | some pin =>
          if st.log_path ≠ pin then { st with next_path := some pin } else st
        | none =>
          if now - st.last_activity < st.switch_after then st
          else
            let current_mtime := match env.logMtime with | some m => m | none => 0
            match env.recentLogAny (current_mtime + 1/100) with
            | some candidate =>
              if candidate ≠ st.log_path then { st with next_path := some candidate }
              else st
            | none => st

/-- `SwitchState.maybe_switch` (lines 932-973), with `time.time()` passed as
`now`: no-op once a handover is pending, when external switching is off, or
within the 0.5-second throttle; otherwise move the throttle mark and run the
check chain. -/
def maybe_switch (skew : ℚ) (env : SwitchEnv) (now : ℚ) (st : SwitchState) :
    SwitchState :=
  if st.next_path.isSome then st
  else if ¬ st.allow_external_switch then st
  else if now - st.last_check < 1/2 then st
  else maybe_switch_checks skew env now { st with last_check := now }

/-- Spec-side model of the claimed check order: the spec says the throttled
switch check consults pid-based resolution first.  `pidResolved` stands for
the path a pid-based resolution would yield; after it, the model defers to
the implemented checks. -/
def maybeSwitchSpecPidFirst (pidResolved : Option String) (skew : ℚ)
    (env : SwitchEnv) (now : ℚ) (st : SwitchState) : SwitchState :=
  if st.next_path.isSome then st
  else if ¬ st.allow_external_switch then st
  else if now - st.last_check < 1/2 then st
  else
    match pidResolved with
    | some candidate =>
      if candidate ≠ st.log_path then
        { st with last_check := now, next_path := some candidate }
      else maybe_switch skew env now st
    | none => maybe_switch skew env now st

/-- Fixture: a companion-log resume notice naming `/b.jsonl`. -/
def fixtureNoticeLine : String :=
  "2026-01-04T00:00:00Z INFO Resumed rollout from \"/b.jsonl\""

/-- Fixture: a switch state tailing `/l.jsonl` with external switching on. -/
def fixtureSwitchState : SwitchState :=
  { log_path := "/l.jsonl", start_time := 0, allow_external_switch := true,
    last_activity := 10 }

/-- Fixture: `fixtureSwitchState` after a check at `now = 10` read the
companion log at mtime 5. -/
def fixtureSwitchStateAfterTui : SwitchState :=
  { log_path := "/l.jsonl", start_time := 0, allow_external_switch := true,
    last_activity := 10, last_check := 10, tui_log_mtime := 5 }

/-- Fixture: an environment whose companion log advanced to mtime 5 and holds
the one resume notice; every path exists and matches the cwd. -/
def fixtureSwitchEnv : SwitchEnv :=
  { tuiMtime := some 5, tuiLines := [fixtureNoticeLine],
    pathExists := fun _ => true, matchesCwd := fun _ => true,
    findLogBySessionId := fun _ => none, recentLogAny := fun _ => none,
    logMtime := none, historyLines := [] }

/-- C1: `_should_emit` admission rule.  With no floor, admit; with a floor:
no parseable timestamp rejects, an untrustworthy timestamp (positive
tolerance exceeded) admits anyway, and otherwise admission is exactly
`floor ≤ ts`. -/
theorem should_emit_admission (skew : ℚ) (e : Event) :
    should_emit skew e none = true ∧
    (∀ floor : ℚ, e.ts = none → should_emit skew e (some floor) = false) ∧
    (∀ floor t : ℚ, e.ts = some t → 0 < skew → skew < |t - floor| →
      should_emit skew e (some floor) = true) ∧
    (∀ floor t : ℚ, e.ts = some t → (0 < skew → |t - floor| ≤ skew) →
      (should_emit skew e (some floor) = true ↔ floor ≤ t)) := by
  refine ⟨rfl, ?_, ?_, ?_⟩
  · intro floor h
    simp [should_emit, h]
  · intro floor t h hpos habs
    have htw : timestamp_trustworthy skew (some t) floor = false := by
      simp only [timestamp_trustworthy, if_neg (not_le.mpr hpos),
        decide_eq_false_iff_not, not_le]
      exact habs
    simp [should_emit, h, htw]
  · intro floor t h htrust
    have htw : timestamp_trustworthy skew (some t) floor = true := by
      simp only [timestamp_trustworthy]
      split_ifs with hs
      · rfl
      · simp only [decide_eq_true_eq]
        exact htrust (lt_of_not_le hs)
    simp [should_emit, h, htw]

/-- Witness for `should_emit_admission`: an event 999 seconds past the floor
with a 300-second tolerance is admitted anyway (untrustworthy branch). -/
theorem should_emit_admission_witness :
    should_emit 300 { ts := some 1000 } (some 1) = true :=
  (should_emit_admission 300 { ts := some 1000 }).2.2.1 1 1000 rfl
    (by norm_num) (by norm_num)

/-- C3, counterexample: at the exact boundary `now - last_response_activity =
idle_timeout` the code returns `true`, while the claimed biconditional demands
that the elapsed time strictly exceed the timeout. -/
theorem should_idle_done_boundary :
    should_idle_done true true [] (some 0) 1 1 = true ∧ ¬ ((1 : ℚ) - 0 > 1) := by
  constructor
  · norm_num [should_idle_done]
  · norm_num

/-- C3, amended: `_should_idle_done` is false whenever the pending tool-call
set is non-empty, the last response activity is null, the idle timeout is
non-positive, no turn is open, or real user activity is unconfirmed; it is
true exactly when the timeout is positive, a turn is open, real user activity
is confirmed, no calls are pending, a last response activity exists, and the
elapsed time `now - last` reaches or exceeds the timeout (`>=`, not strict). -/
theorem should_idle_done_spec (pu ru : Bool) (calls : List String)
    (lra : Option ℚ) (now timeout : ℚ) :
    (calls ≠ [] → should_idle_done pu ru calls lra now timeout = false) ∧
    (lra = none → should_idle_done pu ru calls lra now timeout = false) ∧
    (timeout ≤ 0 → should_idle_done pu ru calls lra now timeout = false) ∧
    (pu = false → should_idle_done pu ru calls lra now timeout = false) ∧
    (ru = false → should_idle_done pu ru calls lra now timeout = false) ∧
    (should_idle_done pu ru calls lra now timeout = true ↔
      0 < timeout ∧ pu = true ∧ ru = true ∧ calls = [] ∧
        ∃ l, lra = some l ∧ timeout ≤ now - l) := by
  unfold should_idle_done
  refine ⟨?_, ?_, ?_, ?_, ?_, ?_⟩
  · intro hc
    have : calls.isEmpty = false := by
      cases calls with
      | nil => exact absurd rfl hc
      | cons a l => rfl
    split_ifs <;> simp_all
  · intro h
    subst h
    split_ifs <;> rfl
  · intro h
    rw [if_pos h]
  · intro h
    subst h
    split_ifs <;> simp_all
  · intro h
    subst h
    split_ifs <;> simp_all
  · constructor
    · intro h
      split_ifs at h with h1 h2 h3
      · cases lra with
        | none => exact absurd h (by simp)
        | some l =>
          simp only [decide_eq_true_eq] at h
          refine ⟨lt_of_not_le h1, ?_, ?_, ?_, l, rfl, h⟩
          · cases pu with
            | false => simp at h2
            | true => rfl
          · cases ru with
            | false => simp at h2
            | true => rfl
          · cases calls with
            | nil => rfl
            | cons a l' => simp at h3
    · rintro ⟨ht, hpu, hru, hcalls, l, hl, hle⟩
      subst hpu hru hcalls hl
      rw [if_neg (not_le.mpr ht)]
      simpa using hle

/-- Witness for `should_idle_done_spec`: with a 1-second timeout, an open
confirmed turn, no pending calls, and 1.5 seconds elapsed, the predicate
returns true. -/
theorem should_idle_done_spec_witness :
    should_idle_done true true [] (some (17/2)) 10 1 = true :=
  (should_idle_done_spec true true [] (some (17/2)) 10 1).2.2.2.2.2.mpr
    ⟨by norm_num, rfl, rfl, rfl, 17/2, rfl, by norm_num⟩

theorem extract_user_text_event_msg_user (p : Payload)
    (h : p.ptype = some sUserMessage) :
    extract_user_text (some sEventMsg) p = p.message := by
  cases hm : p.message <;> simp [extract_user_text, h, hm]

theorem extract_user_text_none (etype : Option String) (p : Payload)
    (h1 : ¬ (etype = some sEventMsg ∧ p.ptype = some sUserMessage))
    (h2 : ¬ (etype = some sResponseItem ∧ p.ptype = some sMessage ∧
      p.role = some sUser)) :
    extract_user_text etype p = none := by
  simp only [extract_user_text, if_neg h1, if_neg h2]

theorem collectFinalize_not_pending (skew idle now : ℚ) (st : LogState)
    (h : st.pending_user = false) :
    collectFinalize skew idle now st = st := by
  simp [collectFinalize, h]

theorem collectRun_append_two (hs : Bool) (pre : List (Option Event))
    (u a : Event) :
    collectRun hs (pre ++ [some u, some a]) =
      collectStep (collectStep (collectRun hs pre) u) a := by
  simp [collectRun, List.foldl_append]

theorem collectStep_close_event_msg (st : LogState) (e : Event)
    (h1 : e.etype = some sEventMsg)
    (h2 : e.payload.ptype = some sAgentMessage ∨
      e.payload.ptype = some sAssistantMessage ∨
      e.payload.ptype = some sTurnAborted) :
    (collectStep st e).pending_user = false ∧
    (collectStep st e).seen_assistant = true ∧
    (collectStep st e).last_turn_commit = st.turn_commit_seen ∧
    (collectStep st e).last_assistant_ts =
      (match e.ts with | some t => some t | none => st.last_assistant_ts) := by
  have hx : extract_user_text e.etype e.payload = none := by
    rcases h2 with h | h | h <;>
      exact extract_user_text_none _ _ (by simp [h1, h]) (by simp [h1])
  rcases h2 with h | h | h <;> cases hts : e.ts <;>
    (simp only [collectStep, hx]; simp [h1, h, hts, noteResponse, msgTruthy])

theorem collectStep_close_response_item (st : LogState) (e : Event)
    (h1 : e.etype = some sResponseItem)
    (h2 : e.payload.ptype = some sMessage)
    (h3 : e.payload.role = some sAssistant) :
    (collectStep st e).pending_user = false ∧
    (collectStep st e).seen_assistant = true ∧
    (collectStep st e).last_turn_commit = st.turn_commit_seen ∧
    (collectStep st e).last_assistant_ts =
      (match e.ts with | some t => some t | none => st.last_assistant_ts) := by
  have hx : extract_user_text e.etype e.payload = none := by
    refine extract_user_text_none _ _ (by simp [h1]) ?_
    simp [h1, h2, h3]
  cases hts : e.ts <;>
    (simp only [collectStep, hx]
     simp [h1, h2, h3, hts, noteResponse, msgTruthy, note_tool_call])

/-- C6, counterexample: a `user_message` immediately followed by an
`agent_message` that carries no parseable timestamp leaves the last-assistant
timestamp null, so the claimed non-null timestamp fails. -/
theorem collect_user_then_agent_no_ts :
    collect_log_state 300 3 99 true
      [some { etype := some sEventMsg, ts := some 0,
              payload := { ptype := some sUserMessage, message := some "Hello" } },
       some { etype := some sEventMsg,
              payload := { ptype := some sAgentMessage } }] =
    { pending_user := false, seen_assistant := true, last_user_ts := some 0,
      last_assistant_ts := none, last_turn_commit := false } := by
  decide

/-- C6, amended: after any event prefix, a `user_message` event immediately
followed by an `agent_message` event yields a collected state with
`pending_user = false`, `seen_assistant = true`, and — provided the
`agent_message` carries a parseable timestamp — that timestamp as the
non-null last-assistant timestamp. -/
theorem collect_user_then_agent (skew idle now : ℚ) (hs : Bool)
    (pre : List (Option Event)) (u a : Event) (ta : ℚ)
    (hu1 : u.etype = some sEventMsg)
    (hu2 : u.payload.ptype = some sUserMessage)
    (ha1 : a.etype = some sEventMsg)
    (ha2 : a.payload.ptype = some sAgentMessage)
    (hts : a.ts = some ta) :
    (collect_log_state skew idle now hs (pre ++ [some u, some a])).pending_user
        = false ∧
    (collect_log_state skew idle now hs (pre ++ [some u, some a])).seen_assistant
        = true ∧
    (collect_log_state skew idle now hs (pre ++ [some u, some a])).last_assistant_ts
        = some ta := by
  have hclose := collectStep_close_event_msg
    (collectStep (collectRun hs pre) u) a ha1 (Or.inl ha2)
  rw [hts] at hclose
  obtain ⟨hp, hs', hc, hl⟩ := hclose
  have hrun := collectRun_append_two hs pre u a
  have hfin := collectFinalize_not_pending skew idle now
    (collectStep (collectStep (collectRun hs pre) u) a) hp
  simp only [collect_log_state, hrun, hfin]
  exact ⟨hp, hs', hl⟩

/-- Witness for `collect_user_then_agent` at a concrete two-event log. -/
theorem collect_user_then_agent_witness :
    (collect_log_state 300 3 99 true
      [some { etype := some sEventMsg, ts := some 0,
              payload := { ptype := some sUserMessage, message := some "Hello" } },
       some { etype := some sEventMsg, ts := some 1,
              payload := { ptype := some sAgentMessage } }]).last_assistant_ts
    = some 1 :=
  (collect_user_then_agent 300 3 99 true []
    { etype := some sEventMsg, ts := some 0,
      payload := { ptype := some sUserMessage, message := some "Hello" } }
    { etype := some sEventMsg, ts := some 1,
      payload := { ptype := some sAgentMessage } }
    1 rfl rfl rfl rfl rfl).2.2

/-- C7, counterexample: with no confirmed real user activity at all (an
`agent_message` then a bootstrap `user_message`), the state after processing
the bootstrap message has `seen_assistant = true`, not `false` as claimed —
the bootstrap message is invisible but does not reset earlier state. -/
theorem collect_bootstrap_after_agent :
    (collect_log_state 300 3 99 false
      [some { etype := some sEventMsg, ts := some 0,
              payload := { ptype := some sAgentMessage } },
       some { etype := some sEventMsg, ts := some 1,
              payload := { ptype := some sUserMessage,
                           message := some "# AGENTS.md instructions x" } }]
      ).seen_assistant = true := by
  decide

/-- C7, amended: while no real user activity has been confirmed, a bootstrap
`user_message` is invisible to `_collect_log_state`: processing it leaves the
state completely unchanged (no turn opens; in particular, starting from the
initial state both `pending_user` and `seen_assistant` stay `false`). -/
theorem collect_bootstrap_invisible (st : LogState) (e : Event) (msg : String)
    (h0 : st.real_user_seen = false)
    (h1 : e.etype = some sEventMsg)
    (h2 : e.payload.ptype = some sUserMessage)
    (h3 : e.payload.message = some msg)
    (h4 : is_bootstrap_message msg = true) :
    collectStep st e = st := by
  have hx : extract_user_text e.etype e.payload = some msg := by
    rw [h1, extract_user_text_event_msg_user _ h2, h3]
  simp [collectStep, hx, h0, h4]

/-- Witness for `collect_bootstrap_invisible` at a concrete bootstrap
message. -/
theorem collect_bootstrap_invisible_witness :
    collectStep (initLogState false)
      { etype := some sEventMsg, ts := some 0,
        payload := { ptype := some sUserMessage,
                     message := some "# AGENTS.md instructions x" } } =
    initLogState false :=
  collect_bootstrap_invisible (initLogState false)
    { etype := some sEventMsg, ts := some 0,
      payload := { ptype := some sUserMessage,
                   message := some "# AGENTS.md instructions x" } }
    "# AGENTS.md instructions x" rfl rfl rfl rfl (by decide)

theorem mem_listInsert_self (id : String) (l : List String) :
    id ∈ listInsert id l := by
  simp only [listInsert]
  split_ifs with h
  · simpa using h
  · simp

/-- C8: a `function_call` whose decoded command, split on the shell
separators, has a segment invoking git with a later `commit` argument marks
its call id as a pending-commit call; a matching `function_call_output`
parsing to exit code 0 sets `turn_commit_seen`; a closing assistant/agent
event then snapshots it into `last_turn_commit`; and a closed turn with
`last_turn_commit` yields the done (not the no-commit) title. -/
theorem collect_git_commit_verdict :
    (∀ (st : LogState) (e : Event) (tokens : List String) (id : String),
      e.etype = some sResponseItem → e.payload.ptype = some sFunctionCall →
      extract_command e.payload = some tokens →
      command_has_git_commit tokens = true →
      e.payload.callId = some id →
      (collectStep st e).pending_commit_calls.contains id = true) ∧
    (∀ (st : LogState) (e : Event) (id : String) (out : String),
      e.etype = some sResponseItem →
      e.payload.ptype = some sFunctionCallOutput →
      e.payload.callId = some id →
      st.pending_commit_calls.contains id = true →
      e.payload.output = some out → parse_exit_code out = some 0 →
      (collectStep st e).turn_commit_seen = true) ∧
    (∀ (st : LogState) (e : Event),
      st.turn_commit_seen = true →
      ((e.etype = some sEventMsg ∧
        (e.payload.ptype = some sAgentMessage ∨
         e.payload.ptype = some sAssistantMessage ∨
         e.payload.ptype = some sTurnAborted)) ∨
       (e.etype = some sResponseItem ∧ e.payload.ptype = some sMessage ∧
        e.payload.role = some sAssistant)) →
      (collectStep st e).last_turn_commit = true) ∧
    (∀ (env : TitleEnv) (running done nc : String) (r : CollectResult),
      r.pending_user = false → r.seen_assistant = true →
      r.last_turn_commit = true →
      initial_title_from_state env running done nc r = some done) := by
  refine ⟨?_, ?_, ?_, ?_⟩
  · intro st e tokens id h1 h2 hcmd hgit hid
    have hx : extract_user_text e.etype e.payload = none :=
      extract_user_text_none _ _ (by simp [h1]) (by simp [h1, h2])
    simp only [collectStep, hx]
    simp only [h1, h2, hcmd, hgit, hid]
    simp [noteResponse]
    exact mem_listInsert_self id st.pending_commit_calls
  · intro st e id out h1 h2 hid hcontains hout hexit
    have hx : extract_user_text e.etype e.payload = none :=
      extract_user_text_none _ _ (by simp [h1]) (by simp [h1, h2])
    have hmem : id ∈ st.pending_commit_calls := by simpa using hcontains
    simp only [collectStep, hx]
    simp [h1, h2, hid, hmem, hout, hexit, noteResponse]
  · intro st e hseen hclose
    rcases hclose with ⟨h1, h2⟩ | ⟨h1, h2, h3⟩
    · rw [(collectStep_close_event_msg st e h1 h2).2.2.1, hseen]
    · rw [(collectStep_close_response_item st e h1 h2 h3).2.2.1, hseen]
  · intro env running done nc r hp hs hc
    simp [initial_title_from_state, hp, hs, hc]

/-- Witness for `collect_git_commit_verdict`: a concrete
`git commit` tool call, its zero-exit output, a closing agent message, and
the resulting done title. -/
theorem collect_git_commit_verdict_witness :
    (collectStep (initLogState true)
      { etype := some sResponseItem, ts := some 1,
        payload := { ptype := some sFunctionCall, callId := some "call_1",
                     name := some sExecCommand,
                     command := some ["git", "commit"] } }
      ).pending_commit_calls.contains "call_1" = true ∧
    (collectStep (collectStep (initLogState true)
      { etype := some sResponseItem, ts := some 1,
        payload := { ptype := some sFunctionCall, callId := some "call_1",
                     name := some sExecCommand,
                     command := some ["git", "commit"] } })
      { etype := some sResponseItem, ts := some 2,
        payload := { ptype := some sFunctionCallOutput, callId := some "call_1",
                     output := some "Exit code: 0" } }).turn_commit_seen = true ∧
    initial_title_from_state ⟨none, fun _ _ => false⟩ "running" "done" "nc"
      { pending_user := false, seen_assistant := true, last_user_ts := none,
        last_assistant_ts := none, last_turn_commit := true } = some "done" := by
  have w1 := collect_git_commit_verdict.1 (initLogState true)
    { etype := some sResponseItem, ts := some 1,
      payload := { ptype := some sFunctionCall, callId := some "call_1",
                   name := some sExecCommand,
                   command := some ["git", "commit"] } }
    ["git", "commit"] "call_1" rfl rfl rfl (by decide) rfl
  have w2 := collect_git_commit_verdict.2.1
    (collectStep (initLogState true)
      { etype := some sResponseItem, ts := some 1,
        payload := { ptype := some sFunctionCall, callId := some "call_1",
                     name := some sExecCommand,
                     command := some ["git", "commit"] } })
    { etype := some sResponseItem, ts := some 2,
      payload := { ptype := some sFunctionCallOutput, callId := some "call_1",
                   output := some "Exit code: 0" } }
    "call_1" "Exit code: 0" rfl rfl rfl w1 rfl (by decide)
  have w4 := collect_git_commit_verdict.2.2.2 ⟨none, fun _ _ => false⟩
    "running" "done" "nc"
    { pending_user := false, seen_assistant := true, last_user_ts := none,
      last_assistant_ts := none, last_turn_commit := true } rfl rfl rfl
  exact ⟨w1, w2, w4⟩

theorem refresh_real_user_fields (cfg : WatchCfg) (env : WatchEnv)
    (text : Option String) (st : WatchState) :
    (refresh_real_user cfg env text st).1.pending_tool_calls =
      st.pending_tool_calls ∧
    (refresh_real_user cfg env text st).1.pending_user = st.pending_user := by
  unfold refresh_real_user
  by_cases h : st.real_user_seen = true
  · simp [h]
  · cases text <;> simp [h] <;> split_ifs <;> simp

theorem refreshAndTitle_fields (cfg : WatchCfg) (env : WatchEnv)
    (ut : Option String) (ws : WatchState) :
    (refreshAndTitle cfg env ut ws).pending_tool_calls = ws.pending_tool_calls ∧
    (refreshAndTitle cfg env ut ws).pending_user = ws.pending_user := by
  unfold refreshAndTitle
  rcases hr : refresh_real_user cfg env ut ws with ⟨st2, b⟩
  have hf := refresh_real_user_fields cfg env ut ws
  rw [hr] at hf
  cases b
  · exact hf
  · constructor
    · simpa [setTitle] using hf.1
    · simpa [setTitle] using hf.2

theorem watchUserTurn_fields (cfg : WatchCfg) (env : WatchEnv)
    (st : WatchState) (ut : Option String) :
    (watchUserTurn cfg env st ut).pending_tool_calls = [] ∧
    (watchUserTurn cfg env st ut).pending_user = true := by
  unfold watchUserTurn
  constructor
  · rw [(refreshAndTitle_fields cfg env ut _).1]
    split_ifs <;> rfl
  · rw [(refreshAndTitle_fields cfg env ut _).2]
    split_ifs <;> rfl

/-- C9: whenever an admitted user message opens a turn — in the historical
scan `_collect_log_state` and in the live loop `watch_log`, for both event
representations — the pending tool-call set is cleared, so it is empty
immediately afterwards (and the turn is open). -/
theorem pending_tool_calls_cleared_on_user_turn :
    (∀ (st : LogState) (e : Event) (text : String),
      extract_user_text e.etype e.payload = some text →
      (st.real_user_seen = true ∨ is_bootstrap_message text = false) →
      (collectStep st e).pending_tool_calls = [] ∧
        (collectStep st e).pending_user = true) ∧
    (∀ (cfg : WatchCfg) (env : WatchEnv) (now : ℚ) (st : WatchState) (e : Event),
      ((e.etype = some sEventMsg ∧ e.payload.ptype = some sUserMessage) ∨
       (e.etype = some sResponseItem ∧ e.payload.ptype = some sMessage ∧
        e.payload.role = some sUser)) →
      (watchStep cfg env now st e).pending_tool_calls = [] ∧
        (watchStep cfg env now st e).pending_user = true) := by
  constructor
  · intro st e text hx h
    simp only [collectStep, hx]
    rcases h with h | h <;> simp [h]
  · intro cfg env now st e h
    rcases h with ⟨h1, h2⟩ | ⟨h1, h2, h3⟩
    · have he : e.etype ≠ some sIdle := by simp [h1]
      simp only [watchStep, if_neg he, h1, h2]
      exact watchUserTurn_fields cfg env _ _
    · have he : e.etype ≠ some sIdle := by simp [h1]
      simp only [watchStep, if_neg he, h1, h2, h3]
      exact watchUserTurn_fields cfg env _ _

/-- Witness for `pending_tool_calls_cleared_on_user_turn`: a user message
clears a non-empty pending tool-call set in both loops. -/
theorem pending_tool_calls_cleared_on_user_turn_witness :
    (collectStep { initLogState true with pending_tool_calls := ["x"] }
      { etype := some sEventMsg, ts := some 0,
        payload := { ptype := some sUserMessage, message := some "hi" } }
      ).pending_tool_calls = [] ∧
    (watchStep ⟨"run", "done", "nc", 3, none, none⟩ ⟨none, false⟩ 5
      { pending_tool_calls := ["x", "y"] }
      { etype := some sEventMsg, ts := some 0,
        payload := { ptype := some sUserMessage, message := some "hi" } }
      ).pending_tool_calls = [] :=
  ⟨(pending_tool_calls_cleared_on_user_turn.1
      { initLogState true with pending_tool_calls := ["x"] }
      { etype := some sEventMsg, ts := some 0,
        payload := { ptype := some sUserMessage, message := some "hi" } }
      "hi" (by decide) (Or.inr (by decide))).1,
   (pending_tool_calls_cleared_on_user_turn.2
      ⟨"run", "done", "nc", 3, none, none⟩ ⟨none, false⟩ 5
      { pending_tool_calls := ["x", "y"] }
      { etype := some sEventMsg, ts := some 0,
        payload := { ptype := some sUserMessage, message := some "hi" } }
      (Or.inl ⟨rfl, rfl⟩)).1⟩

/-- C10: with a non-null start byte offset, `watch_log` hands `iter_jsonl` a
null admission floor (line 1157), so every parseable line after the offset is
admitted — no timestamp filtering happens at all. -/
theorem watch_offset_no_admission_filter (skew : ℚ) (t : Option ℚ)
    (off : Option ℕ) (lines : List (Option Event))
    (h : off.isSome = true) :
    iterJsonlAdmitted skew (iter_start_time t off) lines =
      lines.filterMap id := by
  have hfloor : iter_start_time t off = none := by
    simp [iter_start_time, h]
  rw [hfloor]
  induction lines with
  | nil => rfl
  | cons l rest ih =>
    cases l <;> simp [iterJsonlAdmitted, should_emit] at ih ⊢ <;> exact ih

/-- Witness for `watch_offset_no_admission_filter`: with an offset, an event
with no timestamp and one far before the floor are both admitted. -/
theorem watch_offset_no_admission_filter_witness :
    iterJsonlAdmitted 300 (iter_start_time (some 1000) (some 5))
      [some { etype := some sEventMsg }, none,
       some { etype := some sEventMsg, ts := some 0 }] =
    [{ etype := some sEventMsg }, { etype := some sEventMsg, ts := some 0 }] :=
  (watch_offset_no_admission_filter 300 (some 1000) (some 5)
    [some { etype := some sEventMsg }, none,
     some { etype := some sEventMsg, ts := some 0 }] rfl).trans (by decide)

theorem keyLt_eq_true_iff (a b : ℕ × ℚ × ℚ) :
    keyLt a b = true ↔
      (a.1 < b.1 ∨ (a.1 = b.1 ∧
        (a.2.1 < b.2.1 ∨ (a.2.1 = b.2.1 ∧ a.2.2 < b.2.2)))) := by
  simp [keyLt]

theorem keyLt_false_of_snd_lt (x : ℕ) (d1 d2 r1 r2 : ℚ) (h : d1 < d2) :
    keyLt (x, d2, r2) (x, d1, r1) = false := by
  simp only [keyLt, decide_eq_false_iff_not]
  rintro (h1 | ⟨-, h2 | ⟨he, -⟩⟩)
  · exact lt_irrefl _ h1
  · exact absurd h2 (not_lt.mpr h.le)
  · rw [he] at h
    exact lt_irrefl _ h

theorem keyLt_true_of_snd_lt (x : ℕ) (d1 d2 r1 r2 : ℚ) (h : d2 < d1) :
    keyLt (x, d2, r2) (x, d1, r1) = true := by
  simp [keyLt, h]

theorem candidateKey_trusted (skew start : ℚ) (env : LocEnv) (m : ℚ)
    (p : String) (t : ℚ) (h1 : env.metaTs p = some t)
    (h2 : timestamp_trustworthy skew (some t) start = true) :
    candidateKey skew start env m p =
      ((if env.matchesCwd p then 0 else 1), |t - start|, -m) := by
  simp [candidateKey, h1, h2]

theorem best_log_candidate_two (skew start : ℚ) (env : LocEnv)
    (m1 m2 : ℚ) (p1 p2 : String) :
    best_log_candidate skew start env [(m1, p1), (m2, p2)] =
      if keyLt (candidateKey skew start env m2 p2)
          (candidateKey skew start env m1 p1)
      then some p2 else some p1 := by
  by_cases h : keyLt (candidateKey skew start env m2 p2)
      (candidateKey skew start env m1 p1) = true
  · simp [best_log_candidate, h]
  · rw [Bool.not_eq_true] at h
    simp [best_log_candidate, h]

/-- C4: candidate ranking of `_best_log_candidate`.  With equal cwd-match
status and trustworthy session-meta timestamps, the candidate whose meta
timestamp is strictly closer to the start time wins (in either order); a
cwd match beats a mismatch regardless of distances; and an untrustworthy
meta timestamp is discarded — that candidate's key uses the distance from
its file mtime to the start time instead. -/
theorem best_log_candidate_ranking (skew start : ℚ) (env : LocEnv) :
    (∀ (m1 m2 : ℚ) (p1 p2 : String) (t1 t2 : ℚ),
      env.matchesCwd p1 = env.matchesCwd p2 →
      env.metaTs p1 = some t1 →
      timestamp_trustworthy skew (some t1) start = true →
      env.metaTs p2 = some t2 →
      timestamp_trustworthy skew (some t2) start = true →
      |t1 - start| < |t2 - start| →
      best_log_candidate skew start env [(m1, p1), (m2, p2)] = some p1) ∧
    (∀ (m1 m2 : ℚ) (p1 p2 : String) (t1 t2 : ℚ),
      env.matchesCwd p1 = env.matchesCwd p2 →
      env.metaTs p1 = some t1 →
      timestamp_trustworthy skew (some t1) start = true →
      env.metaTs p2 = some t2 →
      timestamp_trustworthy skew (some t2) start = true →
      |t2 - start| < |t1 - start| →
      best_log_candidate skew start env [(m1, p1), (m2, p2)] = some p2) ∧
    (∀ (m1 m2 : ℚ) (p1 p2 : String),
      env.matchesCwd p1 = false → env.matchesCwd p2 = true →
      best_log_candidate skew start env [(m1, p1), (m2, p2)] = some p2) ∧
    (∀ (m1 m2 : ℚ) (p1 p2 : String),
      env.matchesCwd p1 = true → env.matchesCwd p2 = false →
      best_log_candidate skew start env [(m1, p1), (m2, p2)] = some p1) ∧
    (∀ (m : ℚ) (p : String) (t : ℚ),
      env.metaTs p = some t →
      timestamp_trustworthy skew (some t) start = false →
      candidateKey skew start env m p =
        ((if env.matchesCwd p then 0 else 1), |m - start|, -m)) := by
  refine ⟨?_, ?_, ?_, ?_, ?_⟩
  · intro m1 m2 p1 p2 t1 t2 hcwd h1 ht1 h2 ht2 hd
    rw [best_log_candidate_two,
      candidateKey_trusted skew start env m1 p1 t1 h1 ht1,
      candidateKey_trusted skew start env m2 p2 t2 h2 ht2, hcwd,
      keyLt_false_of_snd_lt _ _ _ _ _ hd]
    rfl
  · intro m1 m2 p1 p2 t1 t2 hcwd h1 ht1 h2 ht2 hd
    rw [best_log_candidate_two,
      candidateKey_trusted skew start env m1 p1 t1 h1 ht1,
      candidateKey_trusted skew start env m2 p2 t2 h2 ht2, hcwd,
      keyLt_true_of_snd_lt _ _ _ _ _ hd]
    rfl
  · intro m1 m2 p1 p2 hc1 hc2
    rw [best_log_candidate_two, if_pos]
    rw [keyLt_eq_true_iff]
    left
    have e1 : (candidateKey skew start env m1 p1).1 = 1 := by
      simp [candidateKey, hc1]
    have e2 : (candidateKey skew start env m2 p2).1 = 0 := by
      simp [candidateKey, hc2]
    rw [e1, e2]
    norm_num
  · intro m1 m2 p1 p2 hc1 hc2
    rw [best_log_candidate_two, if_neg]
    rw [Bool.not_eq_true, Bool.eq_false_iff]
    intro hk
    rw [keyLt_eq_true_iff] at hk
    have e1 : (candidateKey skew start env m1 p1).1 = 0 := by
      simp [candidateKey, hc1]
    have e2 : (candidateKey skew start env m2 p2).1 = 1 := by
      simp [candidateKey, hc2]
    rw [e1, e2] at hk
    rcases hk with hk | ⟨hk, -⟩
    · exact absurd hk (by norm_num)
    · exact absurd hk (by norm_num)
  · intro m p t h1 h2
    simp [candidateKey, h1, h2]

/-- Witness for `best_log_candidate_ranking`: both candidates match the cwd
and carry trustworthy meta timestamps; the closer one (10 vs 20 against
start time 0) wins despite the older mtime. -/
theorem best_log_candidate_ranking_witness :
    best_log_candidate 300 0
      ⟨fun p => if p == "a" then some 10 else some 20, fun _ => true⟩
      [(5, "a"), (6, "b")] = some "a" :=
  (best_log_candidate_ranking 300 0
    ⟨fun p => if p == "a" then some 10 else some 20, fun _ => true⟩).1
    5 6 "a" "b" 10 20 rfl (by decide)
    (by norm_num [timestamp_trustworthy]) (by decide)
    (by norm_num [timestamp_trustworthy]) (by norm_num)

theorem resumeScan_eq (env : TuiEnv) (l : List String) :
    ∀ fb : Option String,
    resumeScan env l fb =
      match firstMatchingRef env l with
      | some p => some p
      | none =>
        match fb with
        | some f => some f
        | none => firstExistingRef env l := by
  induction l with
  | nil =>
    intro fb
    cases fb <;> simp [resumeScan, firstMatchingRef, firstExistingRef]
  | cons line rest ih =>
    intro fb
    cases hm : tui_resume_match line with
    | none =>
      have hr : resumeRef env line = none := by simp [resumeRef, hm]
      have hfm : firstMatchingRef env (line :: rest) = firstMatchingRef env rest := by
        simp [firstMatchingRef, List.findSome?_cons, hr]
      have hfe : firstExistingRef env (line :: rest) = firstExistingRef env rest := by
        simp [firstExistingRef, List.findSome?_cons, hr]
      rw [resumeScan, hm, ih fb, hfm, hfe]
    | some p =>
      by_cases hex : env.pathExists p = true
      · have hr : resumeRef env line = some p := by simp [resumeRef, hm, hex]
        by_cases hcwd : env.matchesCwd p = true
        · have hfm : firstMatchingRef env (line :: rest) = some p := by
            simp [firstMatchingRef, List.findSome?_cons, hr, hcwd]
          rw [resumeScan, hm, hfm]
          simp [hex, hcwd]
        · rw [Bool.not_eq_true] at hcwd
          have hfm : firstMatchingRef env (line :: rest) = firstMatchingRef env rest := by
            simp [firstMatchingRef, List.findSome?_cons, hr, hcwd]
          have hfe : firstExistingRef env (line :: rest) = some p := by
            simp [firstExistingRef, List.findSome?_cons, hr]
          rw [resumeScan, hm, hfm, hfe]
          simp only [hex, Bool.not_true, hcwd]
          rw [if_neg (by simp), if_neg (by simp), ih]
          cases hq : firstMatchingRef env rest <;> cases fb <;> simp
      · rw [Bool.not_eq_true] at hex
        have hr : resumeRef env line = none := by simp [resumeRef, hm, hex]
        have hfm : firstMatchingRef env (line :: rest) = firstMatchingRef env rest := by
          simp [firstMatchingRef, List.findSome?_cons, hr]
        have hfe : firstExistingRef env (line :: rest) = firstExistingRef env rest := by
          simp [firstExistingRef, List.findSome?_cons, hr]
        rw [resumeScan, hm, hfm, hfe]
        simp only [hex, Bool.not_false, if_true]
        rw [ih fb]

/-- C5, counterexample: a companion log holding exactly one resume notice
whose referenced path does not exist on disk yields `None`, refuting "never
null whenever at least one resume notice exists". -/
theorem resume_log_from_tui_missing_path :
    tui_resume_match
        "2026-01-04T00:00:00Z INFO Resumed rollout from \"/tmp/rollout-x.jsonl\"" =
      some "/tmp/rollout-x.jsonl" ∧
    resume_log_from_tui ⟨fun _ => false, fun _ => true⟩
      ["2026-01-04T00:00:00Z INFO Resumed rollout from \"/tmp/rollout-x.jsonl\""] =
      none :=
  ⟨by decide, by decide⟩

/-- C5, amended: over the last 1000 companion-log lines scanned newest
first, `_resume_log_from_tui` returns the most recent resume-notice path
that exists on disk and matches the query cwd; when none matches, the most
recent existing referenced path is the fallback; the result is null exactly
when that fallback also does not exist, i.e. when no notice in the window
references an existing path. -/
theorem resume_log_from_tui_spec (env : TuiEnv) (lines : List String) :
    resume_log_from_tui env lines =
      match firstMatchingRef env ((tailLinesModel 1000 lines).reverse) with
      | some p => some p
      | none => firstExistingRef env ((tailLinesModel 1000 lines).reverse) := by
  rw [resume_log_from_tui, resumeScan_eq]

theorem tui_resume_candidate_log_path (env : SwitchEnv) (st : SwitchState) :
    (tui_resume_candidate env st).2.log_path = st.log_path := by
  unfold tui_resume_candidate
  cases env.tuiMtime with
  | none => rfl
  | some m => by_cases h : m ≤ st.tui_log_mtime <;> simp [h]

theorem history_candidate_log_path (skew : ℚ) (env : SwitchEnv)
    (st : SwitchState) :
    (history_candidate skew env st).2.log_path = st.log_path := by
  unfold history_candidate
  by_cases h : env.historyLines.length ≤ st.history_offset <;> simp [h]

theorem maybe_switch_guards (skew : ℚ) (env : SwitchEnv) (now : ℚ)
    (st : SwitchState) (h1 : st.next_path = none)
    (h2 : st.allow_external_switch = true)
    (h3 : ¬ (now - st.last_check < 1/2)) :
    maybe_switch skew env now st =
      maybe_switch_checks skew env now { st with last_check := now } := by
  unfold maybe_switch
  split_ifs <;> first | rfl | simp_all

theorem fixture_tui_candidate :
    tui_resume_candidate fixtureSwitchEnv
        { fixtureSwitchState with last_check := 10 } =
      (some "/b.jsonl", fixtureSwitchStateAfterTui) := by
  have hres : resume_log_from_tui ⟨fun _ => true, fun _ => true⟩
      [fixtureNoticeLine] = some "/b.jsonl" := by decide
  norm_num [tui_resume_candidate, fixtureSwitchEnv, fixtureSwitchState,
    fixtureSwitchStateAfterTui, hres]

/-- C2, counterexample: the throttled switch check never consults pid-based
resolution.  In a state where (per the spec's claimed order) a pid-derived
resolution would point at `/a.jsonl`, the spec-side pid-first model hands
over to `/a.jsonl`, but the implemented `maybe_switch` hands over to the
companion-log resume target `/b.jsonl`. -/
theorem maybe_switch_no_pid_check :
    (maybeSwitchSpecPidFirst (some "/a.jsonl") 300 fixtureSwitchEnv 10
      fixtureSwitchState).next_path = some "/a.jsonl" ∧
    (maybe_switch 300 fixtureSwitchEnv 10 fixtureSwitchState).next_path =
      some "/b.jsonl" ∧
    ("/a.jsonl" : String) ≠ "/b.jsonl" := by
  refine ⟨?_, ?_, by decide⟩
  · simp [maybeSwitchSpecPidFirst, fixtureSwitchState]
    norm_num
  · rw [maybe_switch_guards 300 fixtureSwitchEnv 10 fixtureSwitchState rfl rfl
      (by norm_num [fixtureSwitchState])]
    simp only [maybe_switch_checks, fixture_tui_candidate]
    simp [fixtureSwitchStateAfterTui]

/-- C2, amended: every throttled switch check re-checks, in priority order,
companion-log resume notices (re-read only when the companion log's mtime
advanced past the high-water mark) and then the history index (scanning only
the delta past the stored offset); pid-based resolution is not re-checked
while tailing.  A higher-priority signal pointing at a file other than the
tailed one is chosen as the handover target before any lower-priority signal
is consulted (the first two parts hold for every environment, so the chosen
target is independent of every lower-priority source). -/
theorem maybe_switch_priority (skew : ℚ) (env : SwitchEnv) (now : ℚ)
    (st : SwitchState) (h1 : st.next_path = none)
    (h2 : st.allow_external_switch = true)
    (h3 : ¬ (now - st.last_check < 1/2)) :
    (∀ (c : String) (st1 : SwitchState),
      tui_resume_candidate env { st with last_check := now } = (some c, st1) →
      c ≠ st.log_path →
      (maybe_switch skew env now st).next_path = some c) ∧
    (∀ (st1 : SwitchState) (c : String) (st2 : SwitchState),
      tui_resume_candidate env { st with last_check := now } = (none, st1) →
      history_candidate skew env st1 = (some c, st2) →
      c ≠ st.log_path →
      (maybe_switch skew env now st).next_path = some c) ∧
    (∀ l' : List (Option HistEntry),
      l'.length = env.historyLines.length →
      l'.drop st.history_offset = env.historyLines.drop st.history_offset →
      history_candidate skew { env with historyLines := l' } st =
        history_candidate skew env st) ∧
    (∀ m : ℚ, env.tuiMtime = some m → m ≤ st.tui_log_mtime →
      tui_resume_candidate env st = (none, st)) := by
  refine ⟨?_, ?_, ?_, ?_⟩
  · intro c st1 htui hne
    have hlp : st1.log_path = st.log_path := by
      have hp := tui_resume_candidate_log_path env { st with last_check := now }
      rw [htui] at hp
      exact hp
    rw [maybe_switch_guards skew env now st h1 h2 h3]
    simp only [maybe_switch_checks, htui]
    simp [hlp, hne]
  · intro st1 c st2 htui hhist hne
    have hlp1 : st1.log_path = st.log_path := by
      have hp := tui_resume_candidate_log_path env { st with last_check := now }
      rw [htui] at hp
      exact hp
    have hlp2 : st2.log_path = st.log_path := by
      have hp := history_candidate_log_path skew env st1
      rw [hhist] at hp
      rw [hp, hlp1]
    rw [maybe_switch_guards skew env now st h1 h2 h3]
    simp only [maybe_switch_checks, htui, hhist]
    simp [hlp2, hne]
  · intro l' hlen hdrop
    unfold history_candidate
    rw [show ({ env with historyLines := l' } : SwitchEnv).historyLines = l'
      from rfl, hlen, hdrop]
  · intro m hm hle
    unfold tui_resume_candidate
    rw [hm]
    simp [hle]

/-- Witness for `maybe_switch_priority`: the companion-log candidate
`/b.jsonl` differs from the tailed `/l.jsonl`, so the check hands over to
it. -/
theorem maybe_switch_priority_witness :
    (maybe_switch 300 fixtureSwitchEnv 10 fixtureSwitchState).next_path =
      some "/b.jsonl" :=
  (maybe_switch_priority 300 fixtureSwitchEnv 10 fixtureSwitchState rfl rfl
    (by norm_num [fixtureSwitchState])).1 "/b.jsonl"
    fixtureSwitchStateAfterTui fixture_tui_candidate (by decide)

end CodexTitle
